import Mathlib

/-!
Verification development for the accuracy/difficulty roll-data module
(`src/module/helpers/acc_diff/index.ts`).

The module is shallowly embedded: each TypeScript class becomes a Lean
structure, the io-ts/serde codec layer becomes explicit decode/encode
functions returning `Except`, and the one external mutable collaborator
(the game world holding each token's active-effect list) is passed as
explicit state.  Getters that in TypeScript read external state are
rendered as state-passing functions returning the (possibly updated)
world alongside their value.
-/

set_option autoImplicit false

/-- Plain serialized values carried by plugin sub-maps.  `undef` models the
JavaScript `undefined` value. -/
inductive PVal where
  | bool (b : Bool)
  | num (n : Int)
  | str (s : String)
  | undef
deriving Repr, DecidableEq

/-- An active effect on an actor; `statusId` mirrors
`eff.data.flags.core.statusId` in the source. -/
structure Effect where
  statusId : String
deriving Repr, DecidableEq

/-- A token on the canvas scene, identified by its id
(`canvas.scene.tokens` keys). -/
structure Token where
  id : String
deriving Repr, DecidableEq

/-- The external mutable world consumed by `lockOnAvailable`: each token
id maps to the active-effect list of that token's actor. -/
abbrev World := List (String × List Effect)

/-- Association-list lookup by string key (JavaScript object property
access). -/
def alookup {α : Type} : List (String × α) → String → Option α
  | [], _ => none
  | (k, v) :: rest, key => if key = k then some v else alookup rest key

/-- The keys of an association list (JavaScript `Object.keys`). -/
def akeys {α : Type} (l : List (String × α)) : List String :=
  l.map Prod.fst

/-- Association-list update (JavaScript property assignment: overwrite in
place if the key exists, else append). -/
def aset {α : Type} : List (String × α) → String → α → List (String × α)
  | [], k, v => [(k, v)]
  | (k1, v1) :: rest, k, v =>
    if k = k1 then (k, v) :: rest else (k1, v1) :: aset rest k v

/-- The effect list of the actor behind a token id. -/
def World.effectsOf (w : World) (tid : String) : List Effect :=
  (alookup w tid).getD []

/-- Modelled from the spec: errors raised by the codec layer
(`serde.ts` decode and the io-ts validators are not under `src/`).
A `validation` error carries a description of the failing path (spec
section 7, ValidationError); `tokenNotFound` carries the user
notification surfaced by `AccDiffTarget`'s constructor before it throws
(spec section 7, ReferenceNotFoundError). -/
inductive DecodeErr where
  | validation (path : String)
  | tokenNotFound (notification : String)
deriving Repr, DecidableEq

/-- Modelled from the spec: a plugin codec
(`AccDiffPluginCodec`, from `./plugin`, not under `src/`) maps between a
plain serialized value and the plugin's validated data; decoding may
fail. -/
structure PluginCodec where
  dec : PVal → Option PVal
  enc : PVal → PVal

/-- A plugin schema: the class-level map from plugin slug to that
plugin's codec (`pluginSchema` static fields in the source). -/
abbrev PluginSchema := List (String × PluginCodec)

/-- Modelled from the spec: the codec round-trip law of spec section 4.1
(`decode(encode(x)) ≈ x`), required of every registered plugin codec:
any value in the range of `dec` is re-decoded intact after `enc`. -/
def LawfulSchema (schema : PluginSchema) : Prop :=
  ∀ kc ∈ schema, ∀ v p, kc.2.dec v = some p → kc.2.dec (kc.2.enc p) = some p

/-- Decoding of the entries of a plugins sub-map, iterating the schema
keys in order (io-ts `t.type` prop iteration): each registered key must
be present and its value must decode. -/
def decodePluginEntries (m : List (String × PVal)) :
    PluginSchema → Except DecodeErr (List (String × PVal))
  | [] => .ok []
  | (k, c) :: rest =>
    match alookup m k with
    | none => .error (.validation ("missing plugin key: " ++ k))
    | some v =>
      match c.dec v with
      | none => .error (.validation ("plugin value failed to validate: " ++ k))
      | some p =>
        match decodePluginEntries m rest with
        | .error e => .error e
        | .ok ps => .ok ((k, p) :: ps)

/-- Modelled from the spec: decoding a plugins sub-map against a plugin
schema (`t.type(this.pluginSchema)` composed through `serde.ts`'s
`decode`, neither of which is under `src/`).  Spec sections 4.1 and 6:
decoding fails with a ValidationError on a key not present in the
currently registered schema, on a missing registered key, and on a value
the registered codec rejects. -/
def decodePluginMap (schema : PluginSchema) (m : List (String × PVal)) :
    Except DecodeErr (List (String × PVal)) :=
  if m.all (fun kv => (alookup schema kv.1).isSome) then
    decodePluginEntries m schema
  else .error (.validation "unknown plugin key")

/-- Modelled from the spec: encoding a plugins sub-map (io-ts `t.type`
encode iterates the schema props, encoding each entry of the instance's
map with the registered codec; a key absent from the instance map would
reach the codec as `undefined`). -/
def encodePluginMap (schema : PluginSchema) (ps : List (String × PVal)) :
    List (String × PVal) :=
  schema.map (fun kc => (kc.1, kc.2.enc ((alookup ps kc.1).getD PVal.undef)))

/-- `Cover` severity; the ordinal is itself the numeric penalty
(source lines 12-16). -/
inductive Cover where
  | none
  | soft
  | hard
deriving Repr, DecidableEq

/-- The numeric value of a cover level (the TypeScript enum value). -/
def Cover.val : Cover → Int
  | .none => 0
  | .soft => 1
  | .hard => 2

/-- `AccDiffWeapon` (source lines 22-67): roll-wide weapon flags plus the
plugin sub-map (decoded plugin data). -/
structure AccDiffWeapon where
  accurate : Bool
  inaccurate : Bool
  seeking : Bool
  plugins : List (String × PVal)
deriving Repr, DecidableEq

/-- `AccDiffBase` (source lines 69-116).  `weaponRef` is the private
`#weapon` back-reference: absent until `hydrate` runs. -/
structure AccDiffBase where
  accuracy : Int
  difficulty : Int
  cover : Cover
  plugins : List (String × PVal)
  weaponRef : Option AccDiffWeapon := none
deriving Repr, DecidableEq

/-- `AccDiffTarget` (source lines 122-208).  `weaponRef` and `baseRef`
are the private `#weapon` and `#base` back-references: absent until
`hydrate` runs. -/
structure AccDiffTarget where
  target : Token
  accuracy : Int
  difficulty : Int
  cover : Cover
  consumeLockOn : Bool
  plugins : List (String × PVal)
  weaponRef : Option AccDiffWeapon := none
  baseRef : Option AccDiffBase := none
deriving Repr, DecidableEq

/-- `AccDiffData` (source lines 211-337): the aggregate root. -/
structure AccDiffData where
  title : String
  weapon : AccDiffWeapon
  base : AccDiffBase
  targets : List AccDiffTarget
deriving Repr, DecidableEq

/-- Plain serialized form of a weapon (`t.TypeOf` of `AccDiffWeapon.schemaCodec`). -/
structure WeaponObj where
  accurate : Bool
  inaccurate : Bool
  seeking : Bool
  plugins : List (String × PVal)
deriving Repr, DecidableEq

/-- Plain serialized form of a base (`t.TypeOf` of `AccDiffBase.schemaCodec`);
`cover` is already restricted to the literal values 0/1/2 by `coverSchema`. -/
structure BaseObj where
  accuracy : Int
  difficulty : Int
  cover : Cover
  plugins : List (String × PVal)
deriving Repr, DecidableEq

/-- Plain serialized form of a target (`t.TypeOf` of `AccDiffTarget.schemaCodec`). -/
structure TargetObj where
  target_id : String
  accuracy : Int
  difficulty : Int
  cover : Cover
  consumeLockOn : Bool
  plugins : List (String × PVal)
deriving Repr, DecidableEq

/-- Plain serialized form of the aggregate (`AccDiffDataSerialized`). -/
structure DataObj where
  title : String
  weapon : WeaponObj
  base : BaseObj
  targets : List TargetObj
deriving Repr, DecidableEq

/-- The `raw` getter of `AccDiffWeapon` (source lines 53-60). -/
def AccDiffWeapon.raw (w : AccDiffWeapon) : WeaponObj :=
  { accurate := w.accurate, inaccurate := w.inaccurate,
    seeking := w.seeking, plugins := w.plugins }

/-- The `raw` getter of `AccDiffBase` (source lines 99-101). -/
def AccDiffBase.raw (b : AccDiffBase) : BaseObj :=
  { accuracy := b.accuracy, difficulty := b.difficulty,
    cover := b.cover, plugins := b.plugins }

/-- The `raw` getter of `AccDiffTarget` (source lines 167-176);
`target_id` reads back `this.target.id`. -/
def AccDiffTarget.raw (t : AccDiffTarget) : TargetObj :=
  { target_id := t.target.id, accuracy := t.accuracy,
    difficulty := t.difficulty, cover := t.cover,
    consumeLockOn := t.consumeLockOn, plugins := t.plugins }

/-- The `total` getter of `AccDiffBase` (source lines 110-115).  It reads
the `#weapon` back-reference; before hydration that read faults, which
the embedding renders as `none`. -/
def AccDiffBase.total (b : AccDiffBase) : Option Int :=
  match b.weaponRef with
  | Option.none => none
  | some w =>
    some (b.accuracy - b.difficulty
      + (if w.accurate then 1 else 0)
      - (if w.inaccurate then 1 else 0)
      - (if w.seeking then 0 else Cover.val b.cover))

/-- The `lockOnAvailable` getter of `AccDiffTarget` (source lines
192-195), run against the external world: finds an active effect with
status id "lockon" on the target's actor.  The world is returned
unchanged alongside the value because the getter only calls `find`. -/
def AccDiffTarget.lockOnAvailableRun (t : AccDiffTarget) (wld : World) :
    Option Effect × World :=
  ((World.effectsOf wld t.target.id).find? (fun e => e.statusId == "lockon"), wld)

/-- The `usingLockOn` getter of `AccDiffTarget` (source lines 188-190):
`(this.consumeLockOn && this.lockOnAvailable) || null`. -/
def AccDiffTarget.usingLockOnRun (t : AccDiffTarget) (wld : World) :
    Option Effect × World :=
  if t.consumeLockOn then t.lockOnAvailableRun wld else (none, wld)

/-- The `total` getter of `AccDiffTarget` (source lines 197-207), with
the external world threaded through the `usingLockOn` read.  Reading the
`#weapon`/`#base` back-references before hydration faults, rendered as
`none`. -/
def AccDiffTarget.totalRun (t : AccDiffTarget) (wld : World) :
    Option Int × World :=
  match t.weaponRef, t.baseRef with
  | some w, some b =>
    let base := t.accuracy - t.difficulty
      + (if w.accurate then 1 else 0)
      - (if w.inaccurate then 1 else 0)
      - (if w.seeking then 0 else Cover.val t.cover)
    let raw := base + b.accuracy - b.difficulty
    let (lk, wld) := t.usingLockOnRun wld
    (some (raw + (if lk.isSome then 1 else 0)), wld)
  | _, _ => (none, wld)

/-- The numeric value of `AccDiffTarget.total` alone. -/
def AccDiffTarget.total (t : AccDiffTarget) (wld : World) : Option Int :=
  (t.totalRun wld).1

/-- An originating item (`LancerItem`), consumed only by plugin
`perRoll` hooks; opaque to this module. -/
structure Item where
  id : String
deriving Repr, DecidableEq

/-- A tag's datum; `LID` is the tag's stable logical identifier string. -/
structure TagData where
  LID : String
deriving Repr, DecidableEq

/-- A tag instance (machine-mind `TagInstance`): `tag.Tag.LID` is the
access path used by `fromParams`. -/
structure TagInstance where
  Tag : TagData
deriving Repr, DecidableEq

/-- Modelled from the spec: a registered plugin (`AccDiffPlugin`, from
`./plugin`, not under `src/`): a unique slug, up to three optional
extension-point hooks producing the plugin's default data, and the
plugin's codec.  Registered plugins appearing in `targetedPlugins`
always carry a `perTarget` hook. -/
structure AccDiffPlugin where
  slug : String
  perRoll : Option (Option Item → PVal)
  perUnknownTarget : Option (Unit → PVal)
  perTarget : Option (Token → PVal)
  codec : PluginCodec

/-- The class-level registry state of `AccDiffData` together with the
three entities' static `pluginSchema` maps (source lines 28-30, 76-78,
132-134, 257-258). -/
structure AccDiffRegistry where
  weaponSchema : PluginSchema := []
  baseSchema : PluginSchema := []
  targetSchema : PluginSchema := []
  plugins : List AccDiffPlugin := []
  targetedPlugins : List AccDiffPlugin := []

/-- `AccDiffData.registerPlugin` (source lines 259-271): extends the
static schema of each entity whose extension point the plugin declares,
records targeted plugins, and appends to the global plugin list. -/
def AccDiffRegistry.registerPlugin (reg : AccDiffRegistry) (p : AccDiffPlugin) :
    AccDiffRegistry :=
  let reg := if p.perRoll.isSome then
    { reg with weaponSchema := aset reg.weaponSchema p.slug p.codec } else reg
  let reg := if p.perUnknownTarget.isSome then
    { reg with baseSchema := aset reg.baseSchema p.slug p.codec } else reg
  let reg := if p.perTarget.isSome then
    { reg with targetSchema := aset reg.targetSchema p.slug p.codec,
               targetedPlugins := reg.targetedPlugins ++ [p] } else reg
  { reg with plugins := reg.plugins ++ [p] }

/-- The spec's invariant that plugin slugs are unique in every entity
schema (spec section 3, Invariants). -/
def AccDiffRegistry.SlugsUnique (reg : AccDiffRegistry) : Prop :=
  (akeys reg.weaponSchema).Nodup ∧ (akeys reg.baseSchema).Nodup ∧
    (akeys reg.targetSchema).Nodup

/-- Every registered codec obeys the codec round-trip law of spec
section 4.1. -/
def AccDiffRegistry.LawfulCodecs (reg : AccDiffRegistry) : Prop :=
  LawfulSchema reg.weaponSchema ∧ LawfulSchema reg.baseSchema ∧
    LawfulSchema reg.targetSchema

/-- Decoding a plain weapon through `AccDiffWeapon.codec`: validate the
plugins sub-map, then run the constructor (source lines 46-51). -/
def decodeWeapon (reg : AccDiffRegistry) (o : WeaponObj) :
    Except DecodeErr AccDiffWeapon :=
  match decodePluginMap reg.weaponSchema o.plugins with
  | .error e => .error e
  | .ok ps => .ok { accurate := o.accurate, inaccurate := o.inaccurate,
                    seeking := o.seeking, plugins := ps }

/-- Decoding a plain base through `AccDiffBase.codec`: validate the
plugins sub-map, then run the constructor (source lines 91-97); the
`#weapon` back-reference is left unset. -/
def decodeBase (reg : AccDiffRegistry) (o : BaseObj) :
    Except DecodeErr AccDiffBase :=
  match decodePluginMap reg.baseSchema o.plugins with
  | .error e => .error e
  | .ok ps => .ok { accuracy := o.accuracy, difficulty := o.difficulty,
                    cover := o.cover, plugins := ps }

/-- Decoding a plain target through `AccDiffTarget.codec`: validate the
plugins sub-map, then run the constructor (source lines 150-165), which
resolves `target_id` against the current scene and throws — after
surfacing a user notification — when no token is found.  Back-references
are left unset. -/
def decodeTarget (reg : AccDiffRegistry) (scene : List Token) (o : TargetObj) :
    Except DecodeErr AccDiffTarget :=
  match decodePluginMap reg.targetSchema o.plugins with
  | .error e => .error e
  | .ok ps =>
    match scene.find? (fun tk => tk.id == o.target_id) with
    | Option.none =>
      .error (.tokenNotFound "Trying to access tokens from a different scene!")
    | some tk =>
      .ok { target := tk, accuracy := o.accuracy, difficulty := o.difficulty,
            cover := o.cover, consumeLockOn := o.consumeLockOn, plugins := ps }

/-- Decoding the target array (`t.array(AccDiffTarget.codec)`): each
element in order; any element failure fails the whole array. -/
def decodeTargets (reg : AccDiffRegistry) (scene : List Token) :
    List TargetObj → Except DecodeErr (List AccDiffTarget)
  | [] => .ok []
  | o :: rest =>
    match decodeTarget reg scene o with
    | .error e => .error e
    | .ok t =>
      match decodeTargets reg scene rest with
      | .error e => .error e
      | .ok ts => .ok (t :: ts)

/-- Events observable during the hydration phase of `AccDiffData`'s
constructor: the three hydrate calls, and each write of a private
back-reference. -/
inductive HydEvent where
  | hydrateWeapon
  | hydrateBase
  | writeBaseWeapon
  | hydrateTarget (i : Nat)
  | writeTargetWeapon (i : Nat)
  | writeTargetBase (i : Nat)
deriving Repr, DecidableEq

/-- `AccDiffWeapon.hydrate` (source lines 62-66): runs each plugin's
hydrate hook.  Modelled from the spec: plugin hydration wires the
plugin's own back-references, which are not part of the serializable
value, so the weapon's value is unchanged. -/
def AccDiffWeapon.hydrateRun (w : AccDiffWeapon) : AccDiffWeapon × List HydEvent :=
  (w, [.hydrateWeapon])

/-- `AccDiffBase.hydrate` (source lines 103-108): writes the `#weapon`
back-reference to the aggregate's weapon, then runs plugin hydrate
hooks. -/
def AccDiffBase.hydrateRun (b : AccDiffBase) (w : AccDiffWeapon) :
    AccDiffBase × List HydEvent :=
  ({ b with weaponRef := some w }, [.hydrateBase, .writeBaseWeapon])

/-- `AccDiffTarget.hydrate` (source lines 178-184): writes the `#weapon`
and `#base` back-references to the aggregate's weapon and base, then
runs plugin hydrate hooks.  The index `i` only labels the emitted
events. -/
def AccDiffTarget.hydrateRun (t : AccDiffTarget) (i : Nat) (w : AccDiffWeapon)
    (b : AccDiffBase) : AccDiffTarget × List HydEvent :=
  ({ t with weaponRef := some w, baseRef := some b },
    [.hydrateTarget i, .writeTargetWeapon i, .writeTargetBase i])

/-- Hydration of the target list in order (the `for` loop of source
line 237), accumulating the events of each target's hydrate call. -/
def hydrateTargets (w : AccDiffWeapon) (b : AccDiffBase) :
    List AccDiffTarget → Nat → List AccDiffTarget × List HydEvent
  | [], _ => ([], [])
  | t :: rest, i =>
    let (t', e) := t.hydrateRun i w b
    let (rest', es) := hydrateTargets w b rest (i + 1)
    (t' :: rest', e ++ es)

/-- The `AccDiffData` constructor (source lines 229-238): store the four
components, then hydrate the weapon, the base, and each target in list
order, returning the constructed aggregate together with the hydration
event trace. -/
def AccDiffData.constructRun (title : String) (w : AccDiffWeapon)
    (b : AccDiffBase) (ts : List AccDiffTarget) :
    AccDiffData × List HydEvent :=
  let (w', ew) := w.hydrateRun
  let (b', eb) := b.hydrateRun w'
  let (ts', ets) := hydrateTargets w' b' ts 0
  ({ title := title, weapon := w', base := b', targets := ts' }, ew ++ eb ++ ets)

/-- The `AccDiffData` constructor, value part. -/
def AccDiffData.construct (title : String) (w : AccDiffWeapon)
    (b : AccDiffBase) (ts : List AccDiffTarget) : AccDiffData :=
  (AccDiffData.constructRun title w b ts).1

/-- `AccDiffData.fromObject` (source lines 249-251): decode the plain
object through `AccDiffData.codec` — weapon, base, and target array in
schema order — then run the constructor (which hydrates). -/
def AccDiffData.fromObject (reg : AccDiffRegistry) (scene : List Token)
    (o : DataObj) : Except DecodeErr AccDiffData :=
  match decodeWeapon reg o.weapon with
  | .error e => .error e
  | .ok w =>
    match decodeBase reg o.base with
    | .error e => .error e
    | .ok b =>
      match decodeTargets reg scene o.targets with
      | .error e => .error e
      | .ok ts => .ok (AccDiffData.construct o.title w b ts)

/-- Encoding a weapon (`encode(this, codec)` through the weapon's
schema): the raw fields, with each plugin entry re-encoded by its
registered codec. -/
def encodeWeapon (reg : AccDiffRegistry) (w : AccDiffWeapon) : WeaponObj :=
  { accurate := w.accurate, inaccurate := w.inaccurate, seeking := w.seeking,
    plugins := encodePluginMap reg.weaponSchema w.plugins }

/-- Encoding a base; back-references are not part of the raw form. -/
def encodeBase (reg : AccDiffRegistry) (b : AccDiffBase) : BaseObj :=
  { accuracy := b.accuracy, difficulty := b.difficulty, cover := b.cover,
    plugins := encodePluginMap reg.baseSchema b.plugins }

/-- Encoding a target; `target_id` is read back from `this.target.id`
and back-references are not part of the raw form. -/
def encodeTarget (reg : AccDiffRegistry) (t : AccDiffTarget) : TargetObj :=
  { target_id := t.target.id, accuracy := t.accuracy,
    difficulty := t.difficulty, cover := t.cover,
    consumeLockOn := t.consumeLockOn,
    plugins := encodePluginMap reg.targetSchema t.plugins }

/-- `AccDiffData.toObject` (source lines 253-255): encode the instance
back to its plain serialized form. -/
def AccDiffData.toObject (reg : AccDiffRegistry) (d : AccDiffData) : DataObj :=
  { title := d.title, weapon := encodeWeapon reg d.weapon,
    base := encodeBase reg d.base,
    targets := d.targets.map (encodeTarget reg) }

/-- One iteration of the tag switch in `fromParams` (source lines
287-299): set the flag matching the tag's logical id, leave the record
unchanged otherwise. -/
def applyTag (w : WeaponObj) (tag : TagInstance) : WeaponObj :=
  if tag.Tag.LID = "tg_accurate" then { w with accurate := true }
  else if tag.Tag.LID = "tg_inaccurate" then { w with inaccurate := true }
  else if tag.Tag.LID = "tg_seeking" then { w with seeking := true }
  else w

/-- The per-target plugin defaults computed by `fromParams` (source
lines 320-322): each targeted plugin's `perTarget` default, encoded into
the target's plugin slot. -/
def targetPluginDefaults (reg : AccDiffRegistry) (tk : Token) :
    List (String × PVal) :=
  reg.targetedPlugins.foldl (fun ps p =>
    match p.perTarget with
    | some f => aset ps p.slug (p.codec.enc (f tk))
    | Option.none => ps) []

/-- `AccDiffData.fromParams` (source lines 273-336): build a plain
object from loose inputs — weapon flags from tags, base from `starting`,
one raw target per supplied token, plugin defaults from the registry —
then pass it through `fromObject`.  The title is
`` `${title} - Accuracy and Difficulty` `` when the supplied title is
truthy (present and non-empty) and `"Accuracy and Difficulty"`
otherwise. -/
def AccDiffData.fromParams (reg : AccDiffRegistry) (scene : List Token)
    (item : Option Item) (tags : Option (List TagInstance))
    (title : Option String) (targets : Option (List Token))
    (starting : Option (Int × Int)) : Except DecodeErr AccDiffData :=
  let flags := (tags.getD []).foldl applyTag
    { accurate := false, inaccurate := false, seeking := false, plugins := [] }
  let weaponPlugins := reg.plugins.foldl (fun ps p =>
    match p.perRoll with
    | some f => aset ps p.slug (p.codec.enc (f item))
    | Option.none => ps) []
  let basePlugins := reg.plugins.foldl (fun ps p =>
    match p.perUnknownTarget with
    | some f => aset ps p.slug (p.codec.enc (f ()))
    | Option.none => ps) []
  let obj : DataObj :=
    { title := match title with
        | some s => if s = "" then "Accuracy and Difficulty"
                    else s ++ " - Accuracy and Difficulty"
        | Option.none => "Accuracy and Difficulty",
      weapon := { flags with plugins := weaponPlugins },
      base := { cover := Cover.none,
                accuracy := match starting with | some s => s.1 | Option.none => 0,
                difficulty := match starting with | some s => s.2 | Option.none => 0,
                plugins := basePlugins },
      targets := (targets.getD []).map (fun tk =>
        { target_id := tk.id, accuracy := 0, difficulty := 0,
          cover := Cover.none, consumeLockOn := true,
          plugins := targetPluginDefaults reg tk }) }
  AccDiffData.fromObject reg scene obj

/-! ## Association-list and plugin-map lemmas -/

@[simp]
theorem alookup_nil {α : Type} (k : String) : alookup ([] : List (String × α)) k = none := rfl

@[simp]
theorem alookup_cons_self {α : Type} (k : String) (v : α) (l : List (String × α)) :
    alookup ((k, v) :: l) k = some v := by
  simp [alookup]

theorem alookup_cons_ne {α : Type} {k k' : String} (v : α) (l : List (String × α))
    (h : k' ≠ k) : alookup ((k, v) :: l) k' = alookup l k' := by
  simp [alookup, h]

theorem alookup_isSome_of_mem_akeys {α : Type} {l : List (String × α)} {k : String}
    (h : k ∈ akeys l) : (alookup l k).isSome := by
  induction l with
  | nil => simp [akeys] at h
  | cons kv rest ih =>
    by_cases hk : k = kv.1
    · subst hk
      simp [alookup]
    · simp [akeys] at h
      rcases h with h | h
      · exact absurd h hk
      · have := ih (by simpa [akeys] using h)
        simpa [alookup, hk] using this

theorem alookup_eq_none_of_not_mem_akeys {α : Type} {l : List (String × α)} {k : String}
    (h : k ∉ akeys l) : alookup l k = none := by
  induction l with
  | nil => rfl
  | cons kv rest ih =>
    simp [akeys] at h
    push_neg at h
    have : k ≠ kv.1 := h.1
    rw [show ((kv.1, kv.2) :: rest : List (String × α)) = kv :: rest from by simp] at *
    cases kv with
    | mk k1 v1 =>
      rw [alookup_cons_ne v1 rest this]
      exact ih (by simpa [akeys] using h.2)

/-- A decode entry pass over the schema ignores a map entry whose key no
schema key mentions. -/
theorem decodePluginEntries_cons_irrelevant {schema : PluginSchema}
    {k : String} (v : PVal) (m : List (String × PVal))
    (h : k ∉ akeys schema) :
    decodePluginEntries ((k, v) :: m) schema = decodePluginEntries m schema := by
  induction schema with
  | nil => rfl
  | cons kc rest ih =>
    simp [akeys] at h
    push_neg at h
    have hne : kc.1 ≠ k := fun hh => h.1 hh.symm
    have hrest : k ∉ akeys rest := by simpa [akeys] using h.2
    cases kc with
    | mk k1 c1 =>
      simp only [decodePluginEntries]
      rw [alookup_cons_ne v m hne, ih hrest]

/-- Encoding over the schema ignores an instance-map entry whose key no
schema key mentions. -/
theorem encodePluginMap_cons_irrelevant {schema : PluginSchema}
    {k : String} (p : PVal) (ps : List (String × PVal))
    (h : k ∉ akeys schema) :
    encodePluginMap schema ((k, p) :: ps) = encodePluginMap schema ps := by
  unfold encodePluginMap
  apply List.map_congr_left
  intro kc hkc
  have hne : kc.1 ≠ k := by
    intro hh
    exact h (hh ▸ List.mem_map_of_mem Prod.fst hkc)
  rw [alookup_cons_ne p ps hne]

/-- Unfolding of `encodePluginMap` at a schema head whose key heads the
instance map and recurs nowhere else in the schema. -/
theorem encodePluginMap_cons (k : String) (c : PluginCodec) (rest : PluginSchema)
    (p : PVal) (ps : List (String × PVal)) (hk : k ∉ akeys rest) :
    encodePluginMap ((k, c) :: rest) ((k, p) :: ps)
      = (k, c.enc p) :: encodePluginMap rest ps := by
  unfold encodePluginMap
  simp only [List.map_cons, alookup_cons_self, Option.getD_some]
  congr 1
  exact encodePluginMap_cons_irrelevant p ps hk

/-- Core plugin-map round trip: a successfully decoded plugins sub-map,
re-encoded with lawful codecs over a duplicate-free schema, decodes back
to the same entries. -/
theorem decodePluginEntries_encode_roundtrip {schema : PluginSchema}
    (hnd : (akeys schema).Nodup) (hlaw : LawfulSchema schema) :
    ∀ {m ps : List (String × PVal)},
      decodePluginEntries m schema = .ok ps →
      decodePluginEntries (encodePluginMap schema ps) schema = .ok ps := by
  induction schema with
  | nil =>
    intro m ps h
    simp only [decodePluginEntries, Except.ok.injEq] at h
    subst h
    rfl
  | cons kc rest ih =>
    obtain ⟨k, c⟩ := kc
    have hnd' : k ∉ akeys rest ∧ (akeys rest).Nodup := by
      simpa [akeys] using hnd
    have hlawrest : LawfulSchema rest := fun kc hm v p hd =>
      hlaw kc (List.mem_cons_of_mem _ hm) v p hd
    have hlawhead := hlaw (k, c) (List.mem_cons_self _ _)
    intro m ps h
    simp only [decodePluginEntries] at h
    cases hv : alookup m k with
    | none => simp [hv] at h
    | some v =>
      simp only [hv] at h
      cases hp : c.dec v with
      | none => simp [hp] at h
      | some p =>
        simp only [hp] at h
        cases hrest : decodePluginEntries m rest with
        | error e => simp [hrest] at h
        | ok ps' =>
          simp only [hrest, Except.ok.injEq] at h
          subst h
          rw [encodePluginMap_cons k c rest p ps' hnd'.1]
          simp only [decodePluginEntries, alookup_cons_self]
          have hh : c.dec (c.enc p) = some p := hlawhead v p hp
          rw [hh, decodePluginEntries_cons_irrelevant (c.enc p)
            (encodePluginMap rest ps') hnd'.1, ih hnd'.2 hlawrest hrest]

/-- The keys of an encoded plugins sub-map are exactly the schema keys. -/
theorem akeys_encodePluginMap (schema : PluginSchema) (ps : List (String × PVal)) :
    akeys (encodePluginMap schema ps) = akeys schema := by
  unfold encodePluginMap akeys
  rw [List.map_map]
  rfl

/-- An encoded plugins sub-map passes the unknown-key closure check. -/
theorem encodePluginMap_all_known (schema : PluginSchema) (ps : List (String × PVal)) :
    (encodePluginMap schema ps).all (fun kv => (alookup schema kv.1).isSome) = true := by
  rw [List.all_eq_true]
  intro kv hkv
  have : kv.1 ∈ akeys schema := by
    rw [← akeys_encodePluginMap schema ps]
    exact List.mem_map_of_mem Prod.fst hkv
  simpa using alookup_isSome_of_mem_akeys this

/-- Full plugin-map round trip, including the closure check. -/
theorem decodePluginMap_encode_roundtrip {schema : PluginSchema}
    (hnd : (akeys schema).Nodup) (hlaw : LawfulSchema schema)
    {m ps : List (String × PVal)}
    (h : decodePluginMap schema m = .ok ps) :
    decodePluginMap schema (encodePluginMap schema ps) = .ok ps := by
  unfold decodePluginMap at h ⊢
  rw [encodePluginMap_all_known schema ps]
  simp only [if_true]
  by_cases hc : m.all (fun kv => (alookup schema kv.1).isSome) = true
  · rw [hc] at h
    simp only [if_true] at h
    exact decodePluginEntries_encode_roundtrip hnd hlaw h
  · simp [hc] at h

/-! ## Entity-level round trips -/

/-- Weapon round trip: decoding the encoded form of a decoded weapon
reproduces it. -/
theorem decodeWeapon_encode_roundtrip (reg : AccDiffRegistry)
    (hnd : (akeys reg.weaponSchema).Nodup) (hlaw : LawfulSchema reg.weaponSchema)
    {o : WeaponObj} {w : AccDiffWeapon} (h : decodeWeapon reg o = .ok w) :
    decodeWeapon reg (encodeWeapon reg w) = .ok w := by
  unfold decodeWeapon at h ⊢
  cases hm : decodePluginMap reg.weaponSchema o.plugins with
  | error e => simp [hm] at h
  | ok ps =>
    simp only [hm, Except.ok.injEq] at h
    subst h
    unfold encodeWeapon
    rw [decodePluginMap_encode_roundtrip hnd hlaw hm]

/-- Base round trip: decoding the encoded form of a decoded base
reproduces it (back-references are not part of the encoded form). -/
theorem decodeBase_encode_roundtrip (reg : AccDiffRegistry)
    (hnd : (akeys reg.baseSchema).Nodup) (hlaw : LawfulSchema reg.baseSchema)
    {o : BaseObj} {b : AccDiffBase} (h : decodeBase reg o = .ok b) :
    decodeBase reg (encodeBase reg b) = .ok b := by
  unfold decodeBase at h ⊢
  cases hm : decodePluginMap reg.baseSchema o.plugins with
  | error e => simp [hm] at h
  | ok ps =>
    simp only [hm, Except.ok.injEq] at h
    subst h
    unfold encodeBase
    rw [decodePluginMap_encode_roundtrip hnd hlaw hm]

/-- Target round trip: decoding the encoded form of a decoded target
reproduces it, the token being re-resolved through its own id. -/
theorem decodeTarget_encode_roundtrip (reg : AccDiffRegistry) (scene : List Token)
    (hnd : (akeys reg.targetSchema).Nodup) (hlaw : LawfulSchema reg.targetSchema)
    {o : TargetObj} {t : AccDiffTarget} (h : decodeTarget reg scene o = .ok t) :
    decodeTarget reg scene (encodeTarget reg t) = .ok t := by
  unfold decodeTarget at h ⊢
  cases hm : decodePluginMap reg.targetSchema o.plugins with
  | error e => simp [hm] at h
  | ok ps =>
    simp only [hm] at h
    cases hf : scene.find? (fun tk => tk.id == o.target_id) with
    | none => simp [hf] at h
    | some tk =>
      simp only [hf, Except.ok.injEq] at h
      subst h
      have hid : tk.id = o.target_id := by
        have := List.find?_some hf
        simpa using this
      unfold encodeTarget
      rw [decodePluginMap_encode_roundtrip hnd hlaw hm]
      simp only [hid, hf]

/-- Target-list round trip. -/
theorem decodeTargets_encode_roundtrip (reg : AccDiffRegistry) (scene : List Token)
    (hnd : (akeys reg.targetSchema).Nodup) (hlaw : LawfulSchema reg.targetSchema) :
    ∀ {os : List TargetObj} {ts : List AccDiffTarget},
      decodeTargets reg scene os = .ok ts →
      decodeTargets reg scene (ts.map (encodeTarget reg)) = .ok ts := by
  intro os
  induction os with
  | nil =>
    intro ts h
    simp only [decodeTargets, Except.ok.injEq] at h
    subst h
    rfl
  | cons o rest ih =>
    intro ts h
    simp only [decodeTargets] at h
    cases ht : decodeTarget reg scene o with
    | error e => simp [ht] at h
    | ok t =>
      simp only [ht] at h
      cases hrest : decodeTargets reg scene rest with
      | error e => simp [hrest] at h
      | ok ts' =>
        simp only [hrest, Except.ok.injEq] at h
        subst h
        simp only [List.map_cons, decodeTargets]
        rw [decodeTarget_encode_roundtrip reg scene hnd hlaw ht, ih hrest]

/-- Equality of `Except` results is decidable when both components are. -/
instance {ε α : Type} [DecidableEq ε] [DecidableEq α] : DecidableEq (Except ε α) :=
  fun a b =>
    match a, b with
    | .error e1, .error e2 =>
      if h : e1 = e2 then isTrue (by rw [h]) else
        isFalse (fun hh => by cases hh; exact h rfl)
    | .error _, .ok _ => isFalse (fun hh => by cases hh)
    | .ok _, .error _ => isFalse (fun hh => by cases hh)
    | .ok x1, .ok x2 =>
      if h : x1 = x2 then isTrue (by rw [h]) else
        isFalse (fun hh => by cases hh; exact h rfl)

/-- A base with its `#weapon` back-reference written. -/
def hydratedBase (b : AccDiffBase) (w : AccDiffWeapon) : AccDiffBase :=
  { b with weaponRef := some w }

/-- A target with its `#weapon` and `#base` back-references written. -/
def hydratedTarget (t : AccDiffTarget) (w : AccDiffWeapon) (b : AccDiffBase) :
    AccDiffTarget :=
  { t with weaponRef := some w, baseRef := some b }

/-- Value part of hydrating the target list: every target gets the
aggregate's weapon and base written into its back-references. -/
theorem hydrateTargets_fst (w : AccDiffWeapon) (b : AccDiffBase) :
    ∀ (ts : List AccDiffTarget) (i : Nat),
      (hydrateTargets w b ts i).1 = ts.map (fun t => hydratedTarget t w b) := by
  intro ts
  induction ts with
  | nil => intro i; rfl
  | cons t rest ih =>
    intro i
    simp [hydrateTargets, AccDiffTarget.hydrateRun, hydratedTarget, ih (i + 1)]

/-- The value computed by `AccDiffData`'s constructor: the components
with all back-references hydrated. -/
theorem construct_eq (title : String) (w : AccDiffWeapon) (b : AccDiffBase)
    (ts : List AccDiffTarget) :
    AccDiffData.construct title w b ts =
      { title := title, weapon := w, base := hydratedBase b w,
        targets := ts.map (fun t => hydratedTarget t w (hydratedBase b w)) } := by
  unfold AccDiffData.construct AccDiffData.constructRun AccDiffWeapon.hydrateRun
    AccDiffBase.hydrateRun
  simp [hydrateTargets_fst, hydratedBase]

/-- Encoding ignores the hydrated back-references, so `toObject` of a
constructed aggregate encodes the pre-hydration components. -/
theorem toObject_construct (reg : AccDiffRegistry) (title : String)
    (w : AccDiffWeapon) (b : AccDiffBase) (ts : List AccDiffTarget) :
    AccDiffData.toObject reg (AccDiffData.construct title w b ts) =
      { title := title, weapon := encodeWeapon reg w, base := encodeBase reg b,
        targets := ts.map (encodeTarget reg) } := by
  rw [construct_eq]
  unfold AccDiffData.toObject
  simp [encodeBase, encodeTarget, List.map_map, hydratedBase, hydratedTarget]

/-- C1: for every validly-constructed `AccDiffData` instance `x` — one
produced by a successful `AccDiffData.fromObject` decode — under any
registered-plugin configuration with unique slugs and lawful codecs,
decoding the plain object produced by `x.toObject()` via
`AccDiffData.fromObject` yields `x` itself again: in particular the
title, the weapon flags, the base accuracy/difficulty/cover, every
target's fields and every plugin sub-map entry of the result are
identical to those of `x`. -/
theorem c1_fromObject_toObject_roundtrip (reg : AccDiffRegistry)
    (scene : List Token) (o : DataObj) (x : AccDiffData)
    (hnd : reg.SlugsUnique) (hlaw : reg.LawfulCodecs)
    (h : AccDiffData.fromObject reg scene o = .ok x) :
    AccDiffData.fromObject reg scene (AccDiffData.toObject reg x) = .ok x := by
  obtain ⟨hnd1, hnd2, hnd3⟩ := hnd
  obtain ⟨hl1, hl2, hl3⟩ := hlaw
  unfold AccDiffData.fromObject at h ⊢
  cases hw : decodeWeapon reg o.weapon with
  | error e => simp [hw] at h
  | ok w =>
    simp only [hw] at h
    cases hb : decodeBase reg o.base with
    | error e => simp [hb] at h
    | ok b =>
      simp only [hb] at h
      cases hts : decodeTargets reg scene o.targets with
      | error e => simp [hts] at h
      | ok ts =>
        simp only [hts, Except.ok.injEq] at h
        subst h
        rw [toObject_construct]
        simp only
        rw [decodeWeapon_encode_roundtrip reg hnd1 hl1 hw,
            decodeBase_encode_roundtrip reg hnd2 hl2 hb,
            decodeTargets_encode_roundtrip reg scene hnd3 hl3 hts]

/-- An empty plugin registry: no plugins registered (the three static
`pluginSchema` maps in the source are initially empty). -/
def regEmpty : AccDiffRegistry := {}

/-- A one-token scene for concrete evaluations. -/
def sceneW : List Token := [{ id := "t1" }]

/-- A concrete plain object for concrete evaluations. -/
def objW : DataObj :=
  { title := "Shot",
    weapon := { accurate := true, inaccurate := false, seeking := false, plugins := [] },
    base := { accuracy := 1, difficulty := 0, cover := Cover.none, plugins := [] },
    targets := [{ target_id := "t1", accuracy := 0, difficulty := 0,
                  cover := Cover.soft, consumeLockOn := true, plugins := [] }] }

/-- The weapon component of `objW` once decoded. -/
def wW : AccDiffWeapon :=
  { accurate := true, inaccurate := false, seeking := false, plugins := [] }

/-- The base component of `objW` once decoded (pre-hydration). -/
def bW : AccDiffBase :=
  { accuracy := 1, difficulty := 0, cover := Cover.none, plugins := [] }

/-- The target component of `objW` once decoded (pre-hydration). -/
def tW : AccDiffTarget :=
  { target := { id := "t1" }, accuracy := 0, difficulty := 0,
    cover := Cover.soft, consumeLockOn := true, plugins := [] }

/-- The hydrated instance `objW` decodes to. -/
def xW : AccDiffData :=
  { title := "Shot", weapon := wW, base := hydratedBase bW wW,
    targets := [hydratedTarget tW wW (hydratedBase bW wW)] }

/-- Witness for C1: the round trip at a concrete registry, scene and
instance. -/
theorem c1_fromObject_toObject_roundtrip_witness :
    AccDiffData.fromObject regEmpty sceneW (AccDiffData.toObject regEmpty xW) = .ok xW :=
  c1_fromObject_toObject_roundtrip regEmpty sceneW objW xW
    (by refine ⟨?_, ?_, ?_⟩ <;> simp [regEmpty, akeys])
    (by refine ⟨?_, ?_, ?_⟩ <;> (intro kc hm; simp [regEmpty] at hm))
    (by decide)

/-! ## Derived totals -/

/-- C2: for every hydrated `AccDiffBase`, `total` is
accuracy − difficulty, +1 if the weapon is accurate, −1 if it is
inaccurate, minus the cover value when the weapon is not seeking and
minus nothing when it is seeking; in particular the total drops by
exactly the cover ordinal when seeking is false and is unaffected by
cover when seeking is true. -/
theorem c2_base_total (b : AccDiffBase) (w : AccDiffWeapon)
    (h : b.weaponRef = some w) :
    b.total = some (b.accuracy - b.difficulty
        + (if w.accurate then 1 else 0)
        - (if w.inaccurate then 1 else 0)
        - (if w.seeking then 0 else Cover.val b.cover)) ∧
    (w.seeking = false → ∀ c : Cover,
      ({ b with cover := c } : AccDiffBase).total
        = (({ b with cover := Cover.none } : AccDiffBase).total).map
            (fun x => x - Cover.val c)) ∧
    (w.seeking = true → ∀ c : Cover,
      ({ b with cover := c } : AccDiffBase).total
        = ({ b with cover := Cover.none } : AccDiffBase).total) := by
  refine ⟨?_, ?_, ?_⟩
  · simp [AccDiffBase.total, h]
  · intro hs c
    simp [AccDiffBase.total, h, hs, Cover.val]
  · intro hs c
    simp [AccDiffBase.total, h, hs]

/-- Witness for C2 at a concrete hydrated base: accuracy 1, difficulty
0, accurate weapon, no cover. -/
theorem c2_base_total_witness : (hydratedBase bW wW).total = some 2 := by
  have h := (c2_base_total (hydratedBase bW wW) wW rfl).1
  rw [h]
  decide

/-- A target used to exhibit a negative, unclamped total. -/
def tNeg : AccDiffTarget :=
  { target := { id := "t1" }, accuracy := 0, difficulty := 5,
    cover := Cover.hard, consumeLockOn := false, plugins := [] }

/-- C3: for every hydrated `AccDiffTarget`, `total` is the target's own
accuracy − difficulty, +1/−1 for the weapon's accurate/inaccurate flags,
minus the target's own cover unless the weapon is seeking, plus the flat
offset base.accuracy − base.difficulty (the base's weapon-flag and cover
terms are not re-added), plus 1 exactly when `usingLockOn` finds an
effect.  The value is the exact integer: it may be negative and is not
clamped. -/
theorem c3_target_total (t : AccDiffTarget) (w : AccDiffWeapon)
    (b : AccDiffBase) (wld : World)
    (hw : t.weaponRef = some w) (hb : t.baseRef = some b) :
    t.total wld = some (t.accuracy - t.difficulty
      + (if w.accurate then 1 else 0)
      - (if w.inaccurate then 1 else 0)
      - (if w.seeking then 0 else Cover.val t.cover)
      + (b.accuracy - b.difficulty)
      + (if ((t.usingLockOnRun wld).1).isSome then 1 else 0)) := by
  unfold AccDiffTarget.total AccDiffTarget.totalRun
  rw [hw, hb]
  simp only
  congr 1
  ring

/-- Witness for C3 at a concrete hydrated target whose total is the
negative integer −5. -/
theorem c3_target_total_witness :
    (hydratedTarget tNeg wW (hydratedBase bW wW)).total [] = some (-5) := by
  have h := c3_target_total (hydratedTarget tNeg wW (hydratedBase bW wW)) wW
    (hydratedBase bW wW) [] rfl rfl
  rw [h]
  decide

/-- Evaluation of `AccDiffBase.total` relative to the external world:
the getter performs no external reads or writes (source lines 110-115),
so the world passes through untouched. -/
def AccDiffBase.totalRun (b : AccDiffBase) (wld : World) : Option Int × World :=
  (b.total, wld)

/-- The target `total` getter never changes the external world: its only
external access is the `find` inside `lockOnAvailable`. -/
theorem totalRun_snd (t : AccDiffTarget) (wld : World) :
    (t.totalRun wld).2 = wld := by
  unfold AccDiffTarget.totalRun AccDiffTarget.usingLockOnRun
    AccDiffTarget.lockOnAvailableRun
  cases t.weaponRef <;> cases t.baseRef <;> by_cases h : t.consumeLockOn <;>
    simp [h]

/-- C7: evaluating the `total` accessors mutates no state: for any
hydrated base and target, evaluation leaves the external world exactly
as it was, and a second evaluation over the resulting state returns the
same value.  (Entity fields cannot change: both accessors are functions
of the entity value.) -/
theorem c7_totals_pure (t : AccDiffTarget) (b : AccDiffBase) (wld : World)
    (_hw : t.weaponRef.isSome) (_hb : t.baseRef.isSome)
    (_hbw : b.weaponRef.isSome) :
    (t.totalRun wld).2 = wld ∧
    t.totalRun ((t.totalRun wld).2) = t.totalRun wld ∧
    (b.totalRun wld).2 = wld ∧
    b.totalRun ((b.totalRun wld).2) = b.totalRun wld := by
  refine ⟨totalRun_snd t wld, ?_, rfl, ?_⟩
  · rw [totalRun_snd t wld]
  · rfl

/-- Witness for C7 at a concrete hydrated base and target. -/
theorem c7_totals_pure_witness :
    ((hydratedTarget tW wW (hydratedBase bW wW)).totalRun []).2 = [] ∧
    (hydratedTarget tW wW (hydratedBase bW wW)).totalRun
        (((hydratedTarget tW wW (hydratedBase bW wW)).totalRun []).2)
      = (hydratedTarget tW wW (hydratedBase bW wW)).totalRun [] ∧
    ((hydratedBase bW wW).totalRun []).2 = [] ∧
    (hydratedBase bW wW).totalRun (((hydratedBase bW wW).totalRun []).2)
      = (hydratedBase bW wW).totalRun [] :=
  c7_totals_pure (hydratedTarget tW wW (hydratedBase bW wW))
    (hydratedBase bW wW) [] (by decide) (by decide) (by decide)

/-! ## Lock-on -/

/-- A weapon with no flags set. -/
def wN : AccDiffWeapon :=
  { accurate := false, inaccurate := false, seeking := false, plugins := [] }

/-- A base contributing nothing. -/
def bN : AccDiffBase :=
  { accuracy := 0, difficulty := 0, cover := Cover.none, plugins := [] }

/-- A hydrated target with `consumeLockOn` set and no other modifiers. -/
def tLock : AccDiffTarget :=
  hydratedTarget
    { target := { id := "t1" }, accuracy := 0, difficulty := 0,
      cover := Cover.none, consumeLockOn := true, plugins := [] }
    wN (hydratedBase bN wN)

/-- A world in which token `t1`'s actor has an active lockon effect. -/
def wldLock : World := [("t1", [{ statusId := "lockon" }])]

/-- Counterexample to C4: `tLock` has `consumeLockOn = true` and its
target carries an active "lockon" condition, so the first evaluation of
`total` includes the +1 bonus — but evaluating `total` does not delete
the condition: the external world is returned unchanged, and a second
evaluation of `total` over that state still includes the bonus, where
the claim says it no longer would. -/
theorem c4_counterexample :
    (tLock.totalRun wldLock).1 = some 1 ∧
    (tLock.totalRun wldLock).2 = wldLock ∧
    (tLock.totalRun ((tLock.totalRun wldLock).2)).1 = some 1 := by
  decide

/-- C4 as amended: for a hydrated target with `consumeLockOn = true`
whose external target carries an active "lockon" condition, evaluating
`total` includes the +1 bonus, but the evaluation itself consumes
nothing: the external state is unchanged and a second evaluation over it
includes the bonus again.  (`usingLockOn` merely returns the found
effect as a handle carrying `delete`; consumption happens only if a
caller invokes it.) -/
theorem c4_amended_total_does_not_consume (t : AccDiffTarget)
    (w : AccDiffWeapon) (b : AccDiffBase) (wld : World) (e : Effect)
    (hw : t.weaponRef = some w) (hb : t.baseRef = some b)
    (hl : (t.usingLockOnRun wld).1 = some e) :
    t.total wld = some (t.accuracy - t.difficulty
      + (if w.accurate then 1 else 0)
      - (if w.inaccurate then 1 else 0)
      - (if w.seeking then 0 else Cover.val t.cover)
      + (b.accuracy - b.difficulty) + 1) ∧
    (t.totalRun wld).2 = wld ∧
    t.total ((t.totalRun wld).2) = t.total wld := by
  refine ⟨?_, totalRun_snd t wld, ?_⟩
  · rw [c3_target_total t w b wld hw hb, hl]
    simp
  · rw [totalRun_snd t wld]

/-- Witness for the amended C4 at the concrete lock-on scenario. -/
theorem c4_amended_witness :
    tLock.total wldLock = some (0 - 0
      + (if false then 1 else 0) - (if false then 1 else 0)
      - (if false then 0 else Cover.val Cover.none) + (0 - 0) + 1) ∧
    (tLock.totalRun wldLock).2 = wldLock ∧
    tLock.total ((tLock.totalRun wldLock).2) = tLock.total wldLock :=
  c4_amended_total_does_not_consume tLock wN (hydratedBase bN wN) wldLock
    { statusId := "lockon" } rfl rfl (by decide)

/-! ## Schema closure and reference errors -/

/-- A plugins sub-map disagrees with a schema on keys: either it has a
key not registered in the schema, or a registered key is missing from
it. -/
abbrev PluginKeyMismatch (schema : PluginSchema) (m : List (String × PVal)) : Prop :=
  (∃ kv ∈ m, (alookup schema kv.1).isNone = true) ∨
    (∃ kc ∈ schema, (alookup m kc.1).isNone = true)

/-- A missing registered key makes the entry pass fail with a
ValidationError. -/
theorem decodePluginEntries_missing {m : List (String × PVal)} :
    ∀ {schema : PluginSchema},
      (∃ kc ∈ schema, (alookup m kc.1).isNone = true) →
      ∃ s, decodePluginEntries m schema = .error (.validation s) := by
  intro schema
  induction schema with
  | nil => intro h; simp at h
  | cons kc rest ih =>
    intro h
    obtain ⟨k, c⟩ := kc
    simp only [decodePluginEntries]
    cases hv : alookup m k with
    | none => exact ⟨_, rfl⟩
    | some v =>
      obtain ⟨kc0, hmem, hk0⟩ := h
      rcases List.mem_cons.1 hmem with heq | hmem'
      · subst heq
        rw [hv] at hk0
        simp at hk0
      · cases hp : c.dec v with
        | none =>
          refine ⟨"plugin value failed to validate: " ++ k, ?_⟩
          simp only [hp]
        | some p =>
          obtain ⟨s, hs⟩ := ih ⟨kc0, hmem', hk0⟩
          refine ⟨s, ?_⟩
          simp only [hp, hs]

/-- Any key mismatch makes plugin-map decoding fail with a
ValidationError. -/
theorem decodePluginMap_mismatch {schema : PluginSchema}
    {m : List (String × PVal)} (h : PluginKeyMismatch schema m) :
    ∃ s, decodePluginMap schema m = .error (.validation s) := by
  unfold decodePluginMap
  by_cases hall : m.all (fun kv => (alookup schema kv.1).isSome) = true
  · rcases h with ⟨kv, hkv, hnone⟩ | hmiss
    · rw [List.all_eq_true] at hall
      have := hall kv hkv
      rw [Option.isNone_iff_eq_none] at hnone
      rw [hnone] at this
      simp at this
    · rw [if_pos hall]
      exact decodePluginEntries_missing hmiss
  · rw [if_neg hall]
    exact ⟨_, rfl⟩

/-- C5: decoding a plain entity — weapon, base, or target — whose
plugins sub-map has a key not present in that entity's currently
registered plugin schema fails with a ValidationError rather than
silently ignoring the key, and decoding one missing a registered key
fails likewise. -/
theorem c5_plugin_schema_closure (reg : AccDiffRegistry) (scene : List Token)
    (ow : WeaponObj) (ob : BaseObj) (ot : TargetObj)
    (hw : PluginKeyMismatch reg.weaponSchema ow.plugins)
    (hb : PluginKeyMismatch reg.baseSchema ob.plugins)
    (ht : PluginKeyMismatch reg.targetSchema ot.plugins) :
    (∃ s, decodeWeapon reg ow = .error (.validation s)) ∧
    (∃ s, decodeBase reg ob = .error (.validation s)) ∧
    (∃ s, decodeTarget reg scene ot = .error (.validation s)) := by
  obtain ⟨sw, hsw⟩ := decodePluginMap_mismatch hw
  obtain ⟨sb, hsb⟩ := decodePluginMap_mismatch hb
  obtain ⟨st, hst⟩ := decodePluginMap_mismatch ht
  refine ⟨⟨sw, ?_⟩, ⟨sb, ?_⟩, ⟨st, ?_⟩⟩
  · unfold decodeWeapon
    rw [hsw]
  · unfold decodeBase
    rw [hsb]
  · unfold decodeTarget
    rw [hst]

/-- The identity plugin codec: accepts and reproduces every value. -/
def idCodec : PluginCodec := { dec := fun v => some v, enc := fun v => v }

/-- A registry with one registered plugin slug `"inv"` on each entity. -/
def regC5 : AccDiffRegistry :=
  { weaponSchema := [("inv", idCodec)], baseSchema := [("inv", idCodec)],
    targetSchema := [("inv", idCodec)] }

/-- A plain weapon carrying an unregistered plugin key. -/
def owBad : WeaponObj :=
  { accurate := false, inaccurate := false, seeking := false,
    plugins := [("mystery", PVal.bool true), ("inv", PVal.bool false)] }

/-- A plain base missing the registered plugin key. -/
def obBad : BaseObj :=
  { accuracy := 0, difficulty := 0, cover := Cover.none, plugins := [] }

/-- A plain target whose plugins sub-map has an unknown key and lacks
the registered one. -/
def otBad : TargetObj :=
  { target_id := "t1", accuracy := 0, difficulty := 0, cover := Cover.none,
    consumeLockOn := false, plugins := [("mystery", PVal.bool true)] }

/-- Witness for C5 at a concrete registry exhibiting both failure
modes. -/
theorem c5_plugin_schema_closure_witness :
    (∃ s, decodeWeapon regC5 owBad = .error (.validation s)) ∧
    (∃ s, decodeBase regC5 obBad = .error (.validation s)) ∧
    (∃ s, decodeTarget regC5 sceneW otBad = .error (.validation s)) :=
  c5_plugin_schema_closure regC5 sceneW owBad obBad otBad
    (by decide) (by decide) (by decide)

/-- A target whose id does not resolve never decodes successfully. -/
theorem decodeTarget_bad_id {reg : AccDiffRegistry} {scene : List Token}
    {ot : TargetObj}
    (h : (scene.find? (fun tk => tk.id == ot.target_id)).isNone = true) :
    ∀ t, decodeTarget reg scene ot ≠ .ok t := by
  intro t
  unfold decodeTarget
  cases hm : decodePluginMap reg.targetSchema ot.plugins with
  | error e => simp
  | ok ps =>
    rw [Option.isNone_iff_eq_none] at h
    simp [h]

/-- A successfully decoded target list decodes every element. -/
theorem decodeTargets_ok_mem {reg : AccDiffRegistry} {scene : List Token} :
    ∀ {os : List TargetObj} {ts : List AccDiffTarget},
      decodeTargets reg scene os = .ok ts →
      ∀ o ∈ os, ∃ t, decodeTarget reg scene o = .ok t := by
  intro os
  induction os with
  | nil => intro ts _ o ho; simp at ho
  | cons o0 rest ih =>
    intro ts h o ho
    simp only [decodeTargets] at h
    cases ht : decodeTarget reg scene o0 with
    | error e => simp [ht] at h
    | ok t0 =>
      simp only [ht] at h
      cases hrest : decodeTargets reg scene rest with
      | error e => simp [hrest] at h
      | ok ts' =>
        rcases List.mem_cons.1 ho with heq | hmem
        · exact ⟨t0, heq ▸ ht⟩
        · exact ih hrest o hmem

/-- C8: if any `target_id` in a plain object does not resolve to a
token in the current scene, decoding the whole object fails — no
partial or degraded instance is produced — and, whenever the failing
target's plugins validate (so its constructor is reached), the error is
precisely the thrown token-not-found error carrying the user
notification. -/
theorem c8_unresolved_target_aborts (reg : AccDiffRegistry)
    (scene : List Token) (o : DataObj)
    (hbad : ∃ ot ∈ o.targets,
      (scene.find? (fun tk => tk.id == ot.target_id)).isNone = true) :
    (∃ e, AccDiffData.fromObject reg scene o = .error e) ∧
    (∀ ot : TargetObj,
      (scene.find? (fun tk => tk.id == ot.target_id)).isNone = true →
      ∀ ps, decodePluginMap reg.targetSchema ot.plugins = .ok ps →
        decodeTarget reg scene ot = .error
          (.tokenNotFound "Trying to access tokens from a different scene!")) := by
  constructor
  · unfold AccDiffData.fromObject
    cases hw : decodeWeapon reg o.weapon with
    | error e => exact ⟨e, rfl⟩
    | ok w =>
      cases hb : decodeBase reg o.base with
      | error e => exact ⟨e, rfl⟩
      | ok b =>
        cases hts : decodeTargets reg scene o.targets with
        | error e => exact ⟨e, rfl⟩
        | ok ts =>
          exfalso
          obtain ⟨ot, hmem, hnone⟩ := hbad
          obtain ⟨t, ht⟩ := decodeTargets_ok_mem hts ot hmem
          exact decodeTarget_bad_id hnone t ht
  · intro ot hnone ps hps
    unfold decodeTarget
    rw [Option.isNone_iff_eq_none] at hnone
    simp [hps, hnone]

/-- Witness for C8: `objW`'s target id `t1` does not resolve in an
empty scene. -/
theorem c8_unresolved_target_aborts_witness :
    (∃ e, AccDiffData.fromObject regEmpty [] objW = .error e) ∧
    (∀ ot : TargetObj,
      (([] : List Token).find? (fun tk => tk.id == ot.target_id)).isNone = true →
      ∀ ps, decodePluginMap regEmpty.targetSchema ot.plugins = .ok ps →
        decodeTarget regEmpty [] ot = .error
          (.tokenNotFound "Trying to access tokens from a different scene!")) :=
  c8_unresolved_target_aborts regEmpty [] objW (by decide)

/-! ## Hydration order -/

/-- The events of one target's hydrate call. -/
def tripEvents (j : Nat) : List HydEvent :=
  [.hydrateTarget j, .writeTargetWeapon j, .writeTargetBase j]

/-- Trace part of hydrating the target list: one event triple per
target, indexed in list order. -/
theorem hydrateTargets_snd (w : AccDiffWeapon) (b : AccDiffBase) :
    ∀ (ts : List AccDiffTarget) (i : Nat),
      (hydrateTargets w b ts i).2 = (List.range' i ts.length).flatMap tripEvents := by
  intro ts
  induction ts with
  | nil => intro i; simp [hydrateTargets, List.range']
  | cons t rest ih =>
    intro i
    simp [hydrateTargets, AccDiffTarget.hydrateRun, ih (i + 1),
      List.range'_succ, List.flatMap_cons, tripEvents]

/-- Occurrences of a `writeTargetWeapon` event in a run of hydrate
triples. -/
theorem count_bind_wTW : ∀ (n i j : Nat),
    (((List.range' i n).flatMap tripEvents).count (HydEvent.writeTargetWeapon j))
      = if i ≤ j ∧ j < i + n then 1 else 0 := by
  intro n
  induction n with
  | zero =>
    intro i j
    have h : ¬(i ≤ j ∧ j < i) := by omega
    simp [List.range', h]
  | succ n ih =>
    intro i j
    rw [List.range'_succ, List.flatMap_cons, List.count_append, ih (i + 1) j]
    have hhead : (tripEvents i).count (HydEvent.writeTargetWeapon j)
        = if i = j then 1 else 0 := by
      by_cases h : i = j
      · subst h; simp [tripEvents, List.count_cons]
      · simp [tripEvents, List.count_cons, h]
    rw [hhead]
    split_ifs <;> omega

/-- Occurrences of a `writeTargetBase` event in a run of hydrate
triples. -/
theorem count_bind_wTB : ∀ (n i j : Nat),
    (((List.range' i n).flatMap tripEvents).count (HydEvent.writeTargetBase j))
      = if i ≤ j ∧ j < i + n then 1 else 0 := by
  intro n
  induction n with
  | zero =>
    intro i j
    have h : ¬(i ≤ j ∧ j < i) := by omega
    simp [List.range', h]
  | succ n ih =>
    intro i j
    rw [List.range'_succ, List.flatMap_cons, List.count_append, ih (i + 1) j]
    have hhead : (tripEvents i).count (HydEvent.writeTargetBase j)
        = if i = j then 1 else 0 := by
      by_cases h : i = j
      · subst h; simp [tripEvents, List.count_cons]
      · simp [tripEvents, List.count_cons, h]
    rw [hhead]
    split_ifs <;> omega

/-- The base's back-reference write never occurs inside target hydrate
triples. -/
theorem count_bind_wBW : ∀ (n i : Nat),
    ((List.range' i n).flatMap tripEvents).count HydEvent.writeBaseWeapon = 0 := by
  intro n
  induction n with
  | zero => intro i; simp [List.range']
  | succ n ih =>
    intro i
    rw [List.range'_succ, List.flatMap_cons, List.count_append, ih (i + 1)]
    simp [tripEvents, List.count_cons]

/-- The full hydration trace of `AccDiffData`'s constructor. -/
theorem constructRun_trace (title : String) (w : AccDiffWeapon)
    (b : AccDiffBase) (ts : List AccDiffTarget) :
    (AccDiffData.constructRun title w b ts).2
      = [HydEvent.hydrateWeapon, HydEvent.hydrateBase, HydEvent.writeBaseWeapon]
        ++ (List.range' 0 ts.length).flatMap tripEvents := by
  unfold AccDiffData.constructRun AccDiffWeapon.hydrateRun AccDiffBase.hydrateRun
  simp [hydrateTargets_snd]

/-- C9: the constructor always hydrates in the fixed order weapon, then
base, then each target in list order; hydration writes the base's
weapon back-reference exactly once and each target's weapon and base
back-references exactly once, setting them to the aggregate's own
components, so after the constructor returns every back-reference is
set; and decoding — the only other way entities come into being — never
writes a back-reference (decoded entities carry unset references). -/
theorem c9_hydration_order (reg : AccDiffRegistry) (scene : List Token)
    (title : String) (w : AccDiffWeapon) (b : AccDiffBase)
    (ts : List AccDiffTarget) :
    ((AccDiffData.constructRun title w b ts).2
      = [HydEvent.hydrateWeapon, HydEvent.hydrateBase, HydEvent.writeBaseWeapon]
        ++ (List.range' 0 ts.length).flatMap tripEvents) ∧
    ((AccDiffData.constructRun title w b ts).2.count HydEvent.writeBaseWeapon = 1) ∧
    (∀ i, i < ts.length →
      (AccDiffData.constructRun title w b ts).2.count (HydEvent.writeTargetWeapon i) = 1 ∧
      (AccDiffData.constructRun title w b ts).2.count (HydEvent.writeTargetBase i) = 1) ∧
    ((AccDiffData.constructRun title w b ts).1.base.weaponRef
      = some (AccDiffData.constructRun title w b ts).1.weapon) ∧
    (∀ t' ∈ (AccDiffData.constructRun title w b ts).1.targets,
      t'.weaponRef = some (AccDiffData.constructRun title w b ts).1.weapon ∧
      t'.baseRef = some (AccDiffData.constructRun title w b ts).1.base) ∧
    (∀ ob x, decodeBase reg ob = .ok x → x.weaponRef = none) ∧
    (∀ ot x, decodeTarget reg scene ot = .ok x →
      x.weaponRef = none ∧ x.baseRef = none) := by
  have hfst : (AccDiffData.constructRun title w b ts).1
      = AccDiffData.construct title w b ts := rfl
  refine ⟨constructRun_trace title w b ts, ?_, ?_, ?_, ?_, ?_, ?_⟩
  · rw [constructRun_trace, List.count_append, count_bind_wBW ts.length 0]
    simp [List.count_cons]
  · intro i hi
    have hcond : 0 ≤ i ∧ i < 0 + ts.length := by omega
    constructor
    · rw [constructRun_trace, List.count_append, count_bind_wTW ts.length 0 i,
        if_pos hcond]
      simp [List.count_cons]
    · rw [constructRun_trace, List.count_append, count_bind_wTB ts.length 0 i,
        if_pos hcond]
      simp [List.count_cons]
  · rw [hfst, construct_eq]
    simp [hydratedBase]
  · intro t' ht'
    rw [hfst, construct_eq] at ht' ⊢
    simp only [List.mem_map] at ht'
    obtain ⟨t0, _, ht0⟩ := ht'
    subst ht0
    simp [hydratedTarget]
  · intro ob x h
    unfold decodeBase at h
    cases hm : decodePluginMap reg.baseSchema ob.plugins with
    | error e => simp [hm] at h
    | ok ps =>
      simp only [hm, Except.ok.injEq] at h
      subst h
      rfl
  · intro ot x h
    unfold decodeTarget at h
    cases hm : decodePluginMap reg.targetSchema ot.plugins with
    | error e => simp [hm] at h
    | ok ps =>
      simp only [hm] at h
      cases hf : scene.find? (fun tk => tk.id == ot.target_id) with
      | none => simp [hf] at h
      | some tk =>
        simp only [hf, Except.ok.injEq] at h
        subst h
        exact ⟨rfl, rfl⟩

/-- Witness for C9 at a concrete constructor run with one target. -/
theorem c9_hydration_order_witness :
    ((AccDiffData.constructRun "Shot" wW bW [tW]).2
      = [HydEvent.hydrateWeapon, HydEvent.hydrateBase, HydEvent.writeBaseWeapon]
        ++ (List.range' 0 [tW].length).flatMap tripEvents) ∧
    ((AccDiffData.constructRun "Shot" wW bW [tW]).2.count
        (HydEvent.writeTargetWeapon 0) = 1) ∧
    ((AccDiffData.constructRun "Shot" wW bW [tW]).1.base.weaponRef
      = some (AccDiffData.constructRun "Shot" wW bW [tW]).1.weapon) := by
  have h := c9_hydration_order regEmpty sceneW "Shot" wW bW [tW]
  exact ⟨h.1, (h.2.2.1 0 (by decide)).1, h.2.2.2.1⟩

/-! ## Factory: tags and title -/

/-- Decoding then constructing copies the title and the weapon flags
verbatim from the plain object. -/
theorem fromObject_ok_fields {reg : AccDiffRegistry} {scene : List Token}
    {o : DataObj} {d : AccDiffData}
    (h : AccDiffData.fromObject reg scene o = .ok d) :
    d.title = o.title ∧ d.weapon.accurate = o.weapon.accurate ∧
    d.weapon.inaccurate = o.weapon.inaccurate ∧
    d.weapon.seeking = o.weapon.seeking := by
  unfold AccDiffData.fromObject at h
  cases hw : decodeWeapon reg o.weapon with
  | error e => simp [hw] at h
  | ok w =>
    simp only [hw] at h
    cases hb : decodeBase reg o.base with
    | error e => simp [hb] at h
    | ok b =>
      simp only [hb] at h
      cases hts : decodeTargets reg scene o.targets with
      | error e => simp [hts] at h
      | ok ts =>
        simp only [hts, Except.ok.injEq] at h
        subst h
        unfold decodeWeapon at hw
        cases hm : decodePluginMap reg.weaponSchema o.weapon.plugins with
        | error e => simp [hm] at hw
        | ok ps =>
          simp only [hm, Except.ok.injEq] at hw
          subst hw
          rw [construct_eq]
          exact ⟨rfl, rfl, rfl, rfl⟩

/-- The `accurate` flag after one tag-switch step. -/
theorem applyTag_accurate (w : WeaponObj) (t : TagInstance) :
    (applyTag w t).accurate = (w.accurate || (t.Tag.LID == "tg_accurate")) := by
  unfold applyTag
  by_cases h1 : t.Tag.LID = "tg_accurate"
  · simp [h1]
  · by_cases h2 : t.Tag.LID = "tg_inaccurate"
    · simp [h1, h2]
    · by_cases h3 : t.Tag.LID = "tg_seeking"
      · simp [h1, h2, h3]
      · simp [h1, h2, h3]

/-- The `inaccurate` flag after one tag-switch step. -/
theorem applyTag_inaccurate (w : WeaponObj) (t : TagInstance) :
    (applyTag w t).inaccurate = (w.inaccurate || (t.Tag.LID == "tg_inaccurate")) := by
  unfold applyTag
  by_cases h1 : t.Tag.LID = "tg_accurate"
  · simp [h1]
  · by_cases h2 : t.Tag.LID = "tg_inaccurate"
    · simp [h1, h2]
    · by_cases h3 : t.Tag.LID = "tg_seeking"
      · simp [h1, h2, h3]
      · simp [h1, h2, h3]

/-- The `seeking` flag after one tag-switch step. -/
theorem applyTag_seeking (w : WeaponObj) (t : TagInstance) :
    (applyTag w t).seeking = (w.seeking || (t.Tag.LID == "tg_seeking")) := by
  unfold applyTag
  by_cases h1 : t.Tag.LID = "tg_accurate"
  · simp [h1]
  · by_cases h2 : t.Tag.LID = "tg_inaccurate"
    · simp [h1, h2]
    · by_cases h3 : t.Tag.LID = "tg_seeking"
      · simp [h1, h2, h3]
      · simp [h1, h2, h3]

/-- The `accurate` flag after the whole tag loop. -/
theorem foldl_applyTag_accurate : ∀ (tl : List TagInstance) (w : WeaponObj),
    (tl.foldl applyTag w).accurate
      = (w.accurate || tl.any (fun t => t.Tag.LID == "tg_accurate")) := by
  intro tl
  induction tl with
  | nil => intro w; simp
  | cons t rest ih =>
    intro w
    rw [List.foldl_cons, ih, List.any_cons, applyTag_accurate, Bool.or_assoc]

/-- The `inaccurate` flag after the whole tag loop. -/
theorem foldl_applyTag_inaccurate : ∀ (tl : List TagInstance) (w : WeaponObj),
    (tl.foldl applyTag w).inaccurate
      = (w.inaccurate || tl.any (fun t => t.Tag.LID == "tg_inaccurate")) := by
  intro tl
  induction tl with
  | nil => intro w; simp
  | cons t rest ih =>
    intro w
    rw [List.foldl_cons, ih, List.any_cons, applyTag_inaccurate, Bool.or_assoc]

/-- The `seeking` flag after the whole tag loop. -/
theorem foldl_applyTag_seeking : ∀ (tl : List TagInstance) (w : WeaponObj),
    (tl.foldl applyTag w).seeking
      = (w.seeking || tl.any (fun t => t.Tag.LID == "tg_seeking")) := by
  intro tl
  induction tl with
  | nil => intro w; simp
  | cons t rest ih =>
    intro w
    rw [List.foldl_cons, ih, List.any_cons, applyTag_seeking, Bool.or_assoc]

/-- C6 as amended: the weapon flags produced by `fromParams` are
derived from tag logical identifiers `"tg_accurate"`, `"tg_inaccurate"`
and `"tg_seeking"`: each flag is set exactly when some supplied tag
carries the corresponding identifier, so unrecognized tags (including
the bare identifiers `"accurate"`/`"inaccurate"`/`"seeking"`) leave all
flags unchanged and duplicate matching tags are idempotent. -/
theorem c6_amended_tag_flags (reg : AccDiffRegistry) (scene : List Token)
    (item : Option Item) (tags : Option (List TagInstance))
    (title : Option String) (targets : Option (List Token))
    (starting : Option (Int × Int)) (d : AccDiffData)
    (h : AccDiffData.fromParams reg scene item tags title targets starting = .ok d) :
    d.weapon.accurate = (tags.getD []).any (fun t => t.Tag.LID == "tg_accurate") ∧
    d.weapon.inaccurate = (tags.getD []).any (fun t => t.Tag.LID == "tg_inaccurate") ∧
    d.weapon.seeking = (tags.getD []).any (fun t => t.Tag.LID == "tg_seeking") := by
  simp only [AccDiffData.fromParams] at h
  obtain ⟨_, hacc, hinacc, hseek⟩ := fromObject_ok_fields h
  refine ⟨?_, ?_, ?_⟩
  · rw [hacc]
    show ((tags.getD []).foldl applyTag _).accurate = _
    rw [foldl_applyTag_accurate]
    simp
  · rw [hinacc]
    show ((tags.getD []).foldl applyTag _).inaccurate = _
    rw [foldl_applyTag_inaccurate]
    simp
  · rw [hseek]
    show ((tags.getD []).foldl applyTag _).seeking = _
    rw [foldl_applyTag_seeking]
    simp

/-- A tag whose logical id is the bare string "accurate". -/
def tagsPlain : List TagInstance := [{ Tag := { LID := "accurate" } }]

/-- Counterexample to C6 as stated: a tag with logical id exactly
`"accurate"` does not set the `accurate` flag — `fromParams` matches the
identifiers `"tg_accurate"`, `"tg_inaccurate"`, `"tg_seeking"` only, so
the resulting weapon still has `accurate = false`. -/
theorem c6_counterexample :
    (AccDiffData.fromParams regEmpty [] none (some tagsPlain) none none
        none).map (fun d => d.weapon.accurate) = .ok false := by
  decide

/-- Tags exercising a match, a duplicate and an unrecognized id. -/
def tagsMix : List TagInstance :=
  [{ Tag := { LID := "tg_accurate" } }, { Tag := { LID := "tg_seeking" } },
   { Tag := { LID := "bogus" } }, { Tag := { LID := "tg_accurate" } }]

/-- The weapon `fromParams` builds from `tagsMix` with no plugins. -/
def wC6 : AccDiffWeapon :=
  { accurate := true, inaccurate := false, seeking := true, plugins := [] }

/-- The instance `fromParams` yields for `tagsMix`, no title and no
targets. -/
def dC6 : AccDiffData :=
  { title := "Accuracy and Difficulty", weapon := wC6,
    base := hydratedBase bN wC6, targets := [] }

/-- Witness for the amended C6 at a concrete tag list containing a
match, a duplicate and an unrecognized identifier. -/
theorem c6_amended_tag_flags_witness :
    dC6.weapon.accurate = (tagsMix.any (fun t => t.Tag.LID == "tg_accurate")) ∧
    dC6.weapon.inaccurate = (tagsMix.any (fun t => t.Tag.LID == "tg_inaccurate")) ∧
    dC6.weapon.seeking = (tagsMix.any (fun t => t.Tag.LID == "tg_seeking")) :=
  c6_amended_tag_flags regEmpty [] none (some tagsMix) none none none dC6
    (by decide)

/-- The title the factory computes from an optional supplied title:
the JavaScript conditional `` title ? `${title} - Accuracy and
Difficulty` : "Accuracy and Difficulty" `` (an omitted or empty title is
falsy). -/
def expectedTitle (title : Option String) : String :=
  match title with
  | some s => if s = "" then "Accuracy and Difficulty"
              else s ++ " - Accuracy and Difficulty"
  | Option.none => "Accuracy and Difficulty"

/-- C10: `fromParams` never uses the supplied title verbatim: the
resulting title is `"<title> - Accuracy and Difficulty"` when a
non-empty title is supplied and exactly `"Accuracy and Difficulty"`
when the title is omitted or empty (the empty string being falsy in the
source's conditional), and it never equals a supplied title. -/
theorem c10_title_suffix (reg : AccDiffRegistry) (scene : List Token)
    (item : Option Item) (tags : Option (List TagInstance))
    (title : Option String) (targets : Option (List Token))
    (starting : Option (Int × Int)) (d : AccDiffData)
    (h : AccDiffData.fromParams reg scene item tags title targets starting = .ok d) :
    d.title = expectedTitle title ∧ (∀ s, title = some s → d.title ≠ s) := by
  simp only [AccDiffData.fromParams] at h
  obtain ⟨htitle, _, _, _⟩ := fromObject_ok_fields h
  have hd : d.title = expectedTitle title := htitle
  refine ⟨hd, ?_⟩
  intro s hs
  subst hs
  rw [hd]
  unfold expectedTitle
  simp only
  by_cases hempty : s = ""
  · subst hempty
    simp
  · rw [if_neg hempty]
    intro heq
    have hlen := congrArg String.length heq
    rw [String.length_append] at hlen
    have hsuffix : (" - Accuracy and Difficulty").length = 26 := by decide
    omega

/-- The instance `fromParams` yields for title "Shot" and no other
inputs. -/
def dC10 : AccDiffData :=
  { title := "Shot - Accuracy and Difficulty", weapon := wN,
    base := hydratedBase bN wN, targets := [] }

/-- Witness for C10 at the concrete title "Shot". -/
theorem c10_title_suffix_witness :
    dC10.title = expectedTitle (some "Shot") ∧ dC10.title ≠ "Shot" := by
  have h := c10_title_suffix regEmpty [] none none (some "Shot") none none dC10
    (by decide)
  exact ⟨h.1, h.2 "Shot" rfl⟩
